import Mathlib

/-!
Shallow embedding of `main.py` from the LeCroy9300-Speki repository: a
frequency-response sweep utility that drives a signal generator, queries a
LeCroy 9300 oscilloscope over a serial line (with a bounded retry loop), and
records (frequency, amplitude) pairs while re-triggering the scope autoset on
large period drift.

Machine floats of the Python source are modelled as exact rationals (ℚ);
Python exceptions are modelled by the explicit error type `PyErr` and
`Except`-valued functions; Python strings are modelled as `List Char` (with
executable split/strip functions mirroring `str.split` and `str.strip`); the
serial channel is modelled by the per-attempt read results it would deliver.
-/

/-- Kinds of Python exceptions that the script can raise or catch:
`ValueError` (raised by `parse_frequency` and by `float`), `IndexError`
(raised by `[0]` on an empty list), `TimeoutError` (raised on an empty serial
read), and `RuntimeError` wrapping the cause of the final failed attempt. -/
inductive PyErr where
  | valueError
  | indexError
  | timeoutError
  | runtimeError (cause : PyErr)
deriving DecidableEq, Repr

instance {ε α : Type} [DecidableEq ε] [DecidableEq α] : DecidableEq (Except ε α) := by
  intro x y
  cases x with
  | ok a =>
    cases y with
    | ok b => exact decidable_of_iff (a = b) (by simp)
    | error b => exact isFalse (by simp)
  | error a =>
    cases y with
    | ok b => exact isFalse (by simp)
    | error b => exact decidable_of_iff (a = b) (by simp)

/-- Models Python `str.split(sep)` for a single-character separator `sep`:
every occurrence of the separator splits, and empty pieces are kept, so the
result always has one more piece than there are separators. -/
def splitOnChar (sep : Char) : List Char → List (List Char)
  | [] => [[]]
  | c :: cs =>
    if c = sep then [] :: splitOnChar sep cs
    else
      match splitOnChar sep cs with
      | [] => [[c]]
      | w :: ws => (c :: w) :: ws

/-- Splits a character list at every character satisfying `p`, keeping empty
pieces (the analogue of `splitOnChar` for a predicate). -/
def splitOnPred (p : Char → Bool) : List Char → List (List Char)
  | [] => [[]]
  | c :: cs =>
    if p c then [] :: splitOnPred p cs
    else
      match splitOnPred p cs with
      | [] => [[c]]
      | w :: ws => (c :: w) :: ws

/-- Models Python `str.split()` with no argument: split on whitespace and
discard the empty pieces, so the result is the list of whitespace-delimited
words. -/
def pyWords (cs : List Char) : List (List Char) :=
  (splitOnPred Char.isWhitespace cs).filter (fun w => w ≠ [])

/-- Models Python `str.strip()`: remove leading and trailing whitespace. -/
def pyStrip (cs : List Char) : List Char :=
  ((cs.dropWhile Char.isWhitespace).reverse.dropWhile Char.isWhitespace).reverse

/-- Numeric value of a list of decimal digit characters, most significant
first (the way Python reads a digit run). -/
def digitsVal (cs : List Char) : ℕ :=
  cs.foldl (fun acc c => acc * 10 + (c.toNat - 48)) 0

/-- Lexical stage of Python `float(s)`: after stripping whitespace, read an
optional sign, an integer digit run, an optional `.` with a fraction digit
run (at least one digit must appear in the mantissa), and an optional
`e`/`E` exponent with optional sign and a mandatory digit run; nothing may
follow.  Returns `(negative, integer digits, fraction digits, exponent
negative, exponent digits)`, with empty exponent digits meaning exponent 0,
or `none` when the string does not match the grammar (Python raises
`ValueError`).  `inf`, `nan` and underscore digit separators are not
modelled. -/
def pyFloatParts (s : List Char) : Option (Bool × List Char × List Char × Bool × List Char) :=
  let cs := pyStrip s
  let neg : Bool := match cs with
    | '-' :: _ => true
    | _ => false
  let cs1 : List Char := match cs with
    | '-' :: r => r
    | '+' :: r => r
    | r => r
  let intPart := cs1.takeWhile Char.isDigit
  let cs2 := cs1.dropWhile Char.isDigit
  let fracPart : List Char := match cs2 with
    | '.' :: r => r.takeWhile Char.isDigit
    | _ => []
  let cs3 : List Char := match cs2 with
    | '.' :: r => r.dropWhile Char.isDigit
    | r => r
  if intPart = [] ∧ fracPart = [] then none
  else
    match cs3 with
    | [] => some (neg, intPart, fracPart, false, [])
    | c :: r1 =>
      if c = 'e' ∨ c = 'E' then
        let eneg : Bool := match r1 with
          | '-' :: _ => true
          | _ => false
        let r2 : List Char := match r1 with
          | '-' :: r => r
          | '+' :: r => r
          | r => r
        let edigits := r2.takeWhile Char.isDigit
        let r3 := r2.dropWhile Char.isDigit
        if edigits = [] ∨ r3 ≠ [] then none
        else some (neg, intPart, fracPart, eneg, edigits)
      else none

/-- Value stage of Python `float(s)`: the exact rational denoted by the
sign, mantissa digits and exponent returned by `pyFloatParts`. -/
def pyFloatVal (neg : Bool) (ip fp : List Char) (eneg : Bool) (ed : List Char) : ℚ :=
  let sgn : ℚ := if neg then -1 else 1
  let mant : ℚ := sgn * ((digitsVal ip : ℚ) + (digitsVal fp : ℚ) / (10 : ℚ) ^ fp.length)
  if eneg then mant / (10 : ℚ) ^ digitsVal ed else mant * (10 : ℚ) ^ digitsVal ed

/-- Models Python `float(s)` on a string, with the value exact as a
rational: `none` models the `ValueError` Python raises on a malformed
literal. -/
def pyFloat (s : List Char) : Option ℚ :=
  match pyFloatParts s with
  | none => none
  | some (neg, ip, fp, eneg, ed) => some (pyFloatVal neg ip fp eneg ed)

/-- Embedding of `parse_frequency` (main.py lines 9-28): split the response
on commas; fewer than two fields raises `ValueError`; otherwise take the
first whitespace-delimited word of the second field (`parts[1].split()[0]`,
which raises `IndexError` when that field has no words) and convert it with
`float`, which raises `ValueError` when the token does not parse. -/
def parse_frequency (response : List Char) : Except PyErr ℚ :=
  match splitOnChar ',' response with
  | _ :: p1 :: _ =>
    match pyWords p1 with
    | [] => Except.error PyErr.indexError
    | v :: _ =>
      match pyFloat v with
      | some q => Except.ok q
      | none => Except.error PyErr.valueError
  | _ => Except.error PyErr.valueError

/-- Read results that the serial channel delivers during one attempt of the
retry loop: the echo line and the response line, as returned by
`serial.read_until(b'\r')` and decoded; an empty list models a read that
timed out with no data. -/
structure AttemptIO where
  echo : List Char
  response : List Char
deriving DecidableEq, Repr

/-- Observable side effects of a query: a command written to the serial
port, a line read from it, or a `time.sleep` for the given number of
seconds. -/
inductive Event where
  | write (cmd : List Char)
  | readLine (data : List Char)
  | sleep (seconds : ℚ)
deriving DecidableEq

/-- Command string sent by `get_freq` (main.py line 42). -/
def freq_cmd : List Char := "parameter_value? freq\r".toList

/-- Command string sent by `get_ampl` (main.py line 80). -/
def ampl_cmd : List Char := "parameter_value? ampl\r".toList

/-- Events of one attempt body (main.py lines 41-54): the command write,
the echo read, and — only when the echo was nonempty, since an empty echo
raises before the second read — the response read. -/
def attempt_events (cmd : List Char) (a : AttemptIO) : List Event :=
  Event.write cmd :: Event.readLine a.echo ::
    (if a.echo = [] then [] else [Event.readLine a.response])

/-- Result of one attempt body (main.py lines 41-57): `TimeoutError` when
either read is empty, otherwise `parse_frequency` applied to the stripped
response line. -/
def attempt_outcome (a : AttemptIO) : Except PyErr ℚ :=
  if a.echo = [] then Except.error PyErr.timeoutError
  else if a.response = [] then Except.error PyErr.timeoutError
  else parse_frequency (pyStrip a.response)

/-- Whether `except (TimeoutError, ValueError)` (main.py lines 59, 97)
catches an exception of this kind. -/
def retryable : PyErr → Bool
  | PyErr.timeoutError => true
  | PyErr.valueError => true
  | _ => false

/-- Retry loop of `get_freq` (main.py lines 39-64), unrolled over the number
of remaining attempts.  `chan k` gives the reads of attempt `k`; the first
argument of the recursion is the current attempt number, the second the
number of attempts still allowed (`attempt < retries` in the source is
exactly `remaining ≥ 2`).  Returns the Python result together with the trace
of serial writes, reads and sleeps; falling out of the loop returns `1.0`
(main.py line 66). -/
def get_freq_go (chan : ℕ → AttemptIO) (delay : ℚ) : ℕ → ℕ → Except PyErr ℚ × List Event
  | _, 0 => (Except.ok 1, [])
  | attempt, Nat.succ n =>
    match attempt_outcome (chan attempt) with
    | Except.ok v => (Except.ok v, attempt_events freq_cmd (chan attempt))
    | Except.error e =>
      if retryable e then
        if n = 0 then
          (Except.error (PyErr.runtimeError e), attempt_events freq_cmd (chan attempt))
        else
          ((get_freq_go chan delay (attempt + 1) n).1,
            attempt_events freq_cmd (chan attempt) ++
              Event.sleep delay :: (get_freq_go chan delay (attempt + 1) n).2)
      else (Except.error e, attempt_events freq_cmd (chan attempt))

/-- Embedding of `get_freq(serial, retries, delay)` (main.py lines 31-66):
`for attempt in range(1, retries + 1)` makes `max 0 retries` attempts
starting at attempt number 1. -/
def get_freq (chan : ℕ → AttemptIO) (retries : ℤ) (delay : ℚ) : Except PyErr ℚ × List Event :=
  get_freq_go chan delay 1 retries.toNat

/-- Retry loop of `get_ampl` (main.py lines 77-102), duplicated from
`get_freq` in the source with only the command string changed; note that it
too parses the response with `parse_frequency` (main.py line 95). -/
def get_ampl_go (chan : ℕ → AttemptIO) (delay : ℚ) : ℕ → ℕ → Except PyErr ℚ × List Event
  | _, 0 => (Except.ok 1, [])
  | attempt, Nat.succ n =>
    match attempt_outcome (chan attempt) with
    | Except.ok v => (Except.ok v, attempt_events ampl_cmd (chan attempt))
    | Except.error e =>
      if retryable e then
        if n = 0 then
          (Except.error (PyErr.runtimeError e), attempt_events ampl_cmd (chan attempt))
        else
          ((get_ampl_go chan delay (attempt + 1) n).1,
            attempt_events ampl_cmd (chan attempt) ++
              Event.sleep delay :: (get_ampl_go chan delay (attempt + 1) n).2)
      else (Except.error e, attempt_events ampl_cmd (chan attempt))

/-- Embedding of `get_ampl(serial, retries, delay)` (main.py lines 69-104). -/
def get_ampl (chan : ℕ → AttemptIO) (retries : ℤ) (delay : ℚ) : Except PyErr ℚ × List Event :=
  get_ampl_go chan delay 1 retries.toNat

/-- Number of serial writes in a trace: one per attempt actually made. -/
def count_writes (evs : List Event) : ℕ :=
  (evs.filter (fun e => match e with | Event.write _ => true | _ => false)).length

/-- Number of `time.sleep(delay)` retry pauses in a trace. -/
def count_sleeps (evs : List Event) : ℕ :=
  (evs.filter (fun e => match e with | Event.sleep _ => true | _ => false)).length

/-- Renames one written command in a trace event, leaving reads and sleeps
untouched: the shape in which `get_ampl`'s trace is exactly `get_freq`'s. -/
def subst_cmd (oldCmd newCmd : List Char) : Event → Event
  | Event.write c => Event.write (if c = oldCmd then newCmd else c)
  | e => e

/-- Models Python `range(start, stop, -s)` for a positive decrement `s`:
the values `start, start - s, start - 2s, ...` while they stay strictly
above `stop`; empty when `start ≤ stop` or `s` is not positive. -/
def py_range_down (start stop s : ℤ) : List ℤ :=
  if start ≤ stop ∨ s ≤ 0 then []
  else (List.range ((start - stop + s - 1) / s).toNat).map (fun k => start - s * (k : ℤ))

/-- Step frequencies commanded inside the sweep loop (main.py line 145):
`range(max_freq, min_freq, -step)`. -/
def sweep_points (min_freq max_freq step : ℤ) : List ℤ :=
  py_range_down max_freq min_freq step

/-- State carried across sweep-loop iterations (main.py lines 134-160):
the reference period `last_period`, the two measurement lists `freq` and
`ampl`, plus — for the observable behaviour — the list of frequencies
commanded to the generator and the number of `aset` autoset commands sent
from inside the loop. -/
structure SweepState where
  last_period : ℚ
  freqs : List ℚ
  ampls : List ℚ
  commanded : List ℤ
  aset_count : ℕ
deriving Repr

/-- One iteration of the sweep loop (main.py lines 145-160) with the
generator set to `i`: measure frequency `mf i` and amplitude `ma i` (the
values the two query calls would return), append both, then re-trigger
autoset and adopt the new period as reference exactly when the relative
period change reaches the threshold 0.4 (`period_change >= threshold`). -/
def sweep_step (mf ma : ℤ → ℚ) (st : SweepState) (i : ℤ) : SweepState :=
  let f := mf i
  let a := ma i
  let current_period := 1 / f
  let period_change := |current_period - st.last_period| / st.last_period
  if period_change ≥ 0.4 then
    { last_period := current_period
      freqs := st.freqs ++ [f]
      ampls := st.ampls ++ [a]
      commanded := st.commanded ++ [i]
      aset_count := st.aset_count + 1 }
  else
    { last_period := st.last_period
      freqs := st.freqs ++ [f]
      ampls := st.ampls ++ [a]
      commanded := st.commanded ++ [i]
      aset_count := st.aset_count }

/-- Initial sweep state (main.py lines 134-143): empty lists and reference
period `1 / max_freq` from the pre-sweep autoset at `max_freq`. -/
def sweep_init (max_freq : ℤ) : SweepState :=
  { last_period := 1 / (max_freq : ℚ)
    freqs := []
    ampls := []
    commanded := []
    aset_count := 0 }

/-- The whole sweep loop (main.py lines 145-160) as a fold of `sweep_step`
over the step frequencies. -/
def sweep_run (mf ma : ℤ → ℚ) (min_freq max_freq step : ℤ) : SweepState :=
  (sweep_points min_freq max_freq step).foldl (sweep_step mf ma) (sweep_init max_freq)

/-- Executable check that a list of integers is strictly decreasing from
head to last. -/
def strictlyDecreasing : List ℤ → Bool
  | [] => true
  | [_] => true
  | x :: y :: t => decide (y < x) && strictlyDecreasing (y :: t)

/-- The parser on the documented example response (main.py lines 13-16):
`10.00175E+3` denotes exactly 10001.75. -/
lemma parse_pava_ok :
    parse_frequency "C1:PAVA FREQ,10.00175E+3 HZ,AV".toList = Except.ok (10001.75 : ℚ) := by
  have h1 : splitOnChar ',' "C1:PAVA FREQ,10.00175E+3 HZ,AV".toList
      = ["C1:PAVA FREQ".toList, "10.00175E+3 HZ".toList, "AV".toList] := by decide
  have h2 : pyWords "10.00175E+3 HZ".toList = ["10.00175E+3".toList, "HZ".toList] := by decide
  have h3 : pyFloatParts "10.00175E+3".toList
      = some (false, ['1', '0'], ['0', '0', '1', '7', '5'], false, ['3']) := by decide
  simp only [parse_frequency, h1, h2, pyFloat, h3, pyFloatVal]
  norm_num [show digitsVal ['1', '0'] = 10 from by decide,
    show digitsVal ['0', '0', '1', '7', '5'] = 175 from by decide,
    show digitsVal ['3'] = 3 from by decide]

example : sweep_points 1000 10000 100 = (List.range 90).map (fun k => (10000 : ℤ) - 100 * (k : ℤ)) := by decide
example : (sweep_points 1000 10000 100).length = 90 := by decide
example : parse_frequency "C1:PAVA FREQ,notanumber HZ,AV".toList = Except.error PyErr.valueError := by decide
example : parse_frequency "C1:PAVA , ,AV".toList = Except.error PyErr.indexError := by decide

/-- Every run of `parse_frequency` ends in the format error, the index
error, or a parsed value. -/
lemma parse_frequency_classify (s : List Char) :
    parse_frequency s = Except.error PyErr.valueError ∨
    parse_frequency s = Except.error PyErr.indexError ∨
    ∃ q, parse_frequency s = Except.ok q := by
  cases h1 : splitOnChar ',' s with
  | nil => left; simp [parse_frequency, h1]
  | cons p0 rest =>
    cases rest with
    | nil => left; simp [parse_frequency, h1]
    | cons p1 rest2 =>
      cases h2 : pyWords p1 with
      | nil => right; left; simp [parse_frequency, h1, h2]
      | cons v vs =>
        cases h3 : pyFloat v with
        | none => left; simp [parse_frequency, h1, h2, h3]
        | some q => right; right; exact ⟨q, by simp [parse_frequency, h1, h2, h3]⟩

lemma parse_frequency_ne_timeout (s : List Char) :
    parse_frequency s ≠ Except.error PyErr.timeoutError := by
  rcases parse_frequency_classify s with h | h | ⟨q, h⟩ <;> simp [h]

/-- An attempt reports a timeout exactly when one of its two reads was
empty. -/
lemma attempt_outcome_timeout_iff (a : AttemptIO) :
    attempt_outcome a = Except.error PyErr.timeoutError ↔ (a.echo = [] ∨ a.response = []) := by
  unfold attempt_outcome
  by_cases h1 : a.echo = [] <;> by_cases h2 : a.response = [] <;>
    simp [h1, h2, parse_frequency_ne_timeout]

lemma count_writes_append (l1 l2 : List Event) :
    count_writes (l1 ++ l2) = count_writes l1 + count_writes l2 := by
  simp [count_writes, List.filter_append]

lemma count_sleeps_append (l1 l2 : List Event) :
    count_sleeps (l1 ++ l2) = count_sleeps l1 + count_sleeps l2 := by
  simp [count_sleeps, List.filter_append]

lemma count_writes_attempt (cmd : List Char) (a : AttemptIO) :
    count_writes (attempt_events cmd a) = 1 := by
  by_cases h : a.echo = [] <;> simp [attempt_events, count_writes, h]

lemma count_sleeps_attempt (cmd : List Char) (a : AttemptIO) :
    count_sleeps (attempt_events cmd a) = 0 := by
  by_cases h : a.echo = [] <;> simp [attempt_events, count_sleeps, h]

lemma count_writes_sleep_cons (d : ℚ) (l : List Event) :
    count_writes (Event.sleep d :: l) = count_writes l := by
  simp [count_writes]

lemma count_sleeps_sleep_cons (d : ℚ) (l : List Event) :
    count_sleeps (Event.sleep d :: l) = count_sleeps l + 1 := by
  simp [count_sleeps, List.length_cons]

lemma get_freq_go_ok {chan : ℕ → AttemptIO} {d : ℚ} {attempt n : ℕ} {v : ℚ}
    (h : attempt_outcome (chan attempt) = Except.ok v) :
    get_freq_go chan d attempt (n + 1) = (Except.ok v, attempt_events freq_cmd (chan attempt)) := by
  simp [get_freq_go, h]

lemma get_freq_go_last {chan : ℕ → AttemptIO} {d : ℚ} {attempt : ℕ} {e : PyErr}
    (h : attempt_outcome (chan attempt) = Except.error e) (hr : retryable e = true) :
    get_freq_go chan d attempt 1 =
      (Except.error (PyErr.runtimeError e), attempt_events freq_cmd (chan attempt)) := by
  simp [get_freq_go, h, hr]

lemma get_freq_go_retry {chan : ℕ → AttemptIO} {d : ℚ} {attempt n : ℕ} {e : PyErr}
    (h : attempt_outcome (chan attempt) = Except.error e) (hr : retryable e = true)
    (hn : n ≠ 0) :
    get_freq_go chan d attempt (n + 1) =
      ((get_freq_go chan d (attempt + 1) n).1,
        attempt_events freq_cmd (chan attempt) ++
          Event.sleep d :: (get_freq_go chan d (attempt + 1) n).2) := by
  simp [get_freq_go, h, hr, hn]

lemma get_freq_go_fatal {chan : ℕ → AttemptIO} {d : ℚ} {attempt n : ℕ} {e : PyErr}
    (h : attempt_outcome (chan attempt) = Except.error e) (hr : retryable e = false) :
    get_freq_go chan d attempt (n + 1) = (Except.error e, attempt_events freq_cmd (chan attempt)) := by
  simp [get_freq_go, h, hr]

/-- When the first `j` attempts fail with retryable errors and attempt
`a + j` succeeds within the allowed count, the loop returns the parsed value
of that attempt, having made `j + 1` attempts with `j` retry pauses. -/
lemma get_freq_go_succeeds (chan : ℕ → AttemptIO) (d v : ℚ) :
    ∀ (j a n : ℕ), j < n →
    (∀ k, a ≤ k → k < a + j →
      ∃ e, attempt_outcome (chan k) = Except.error e ∧ retryable e = true) →
    attempt_outcome (chan (a + j)) = Except.ok v →
    (get_freq_go chan d a n).1 = Except.ok v ∧
    count_writes (get_freq_go chan d a n).2 = j + 1 ∧
    count_sleeps (get_freq_go chan d a n).2 = j := by
  intro j
  induction j with
  | zero =>
    intro a n hn hfail hsucc
    obtain ⟨m, rfl⟩ : ∃ m, n = m + 1 := ⟨n - 1, by omega⟩
    rw [Nat.add_zero] at hsucc
    rw [get_freq_go_ok hsucc]
    simp [count_writes_attempt, count_sleeps_attempt]
  | succ j ih =>
    intro a n hn hfail hsucc
    obtain ⟨m, rfl⟩ : ∃ m, n = m + 1 := ⟨n - 1, by omega⟩
    obtain ⟨e, he, hr⟩ := hfail a (le_refl a) (by omega)
    have hm : m ≠ 0 := by omega
    rw [get_freq_go_retry he hr hm]
    have ihh := ih (a + 1) m (by omega)
      (fun k hk1 hk2 => hfail k (by omega) (by omega))
      (by rw [show a + 1 + j = a + (j + 1) from by omega]; exact hsucc)
    refine ⟨ihh.1, ?_, ?_⟩
    · rw [count_writes_append, count_writes_sleep_cons, count_writes_attempt, ihh.2.1]
      omega
    · rw [count_sleeps_append, count_sleeps_sleep_cons, count_sleeps_attempt, ihh.2.2]
      omega

/-- When every attempt the loop is allowed fails with a retryable error, the
loop raises `RuntimeError` wrapping the error of its final attempt, having
made exactly `n` attempts with `n - 1` retry pauses. -/
lemma get_freq_go_exhausts (chan : ℕ → AttemptIO) (d : ℚ) (e : ℕ → PyErr) :
    ∀ (n a : ℕ), 1 ≤ n →
    (∀ k, a ≤ k → k < a + n →
      attempt_outcome (chan k) = Except.error (e k) ∧ retryable (e k) = true) →
    (get_freq_go chan d a n).1 = Except.error (PyErr.runtimeError (e (a + n - 1))) ∧
    count_writes (get_freq_go chan d a n).2 = n ∧
    count_sleeps (get_freq_go chan d a n).2 = n - 1 := by
  intro n
  induction n with
  | zero => intro a h; omega
  | succ m ih =>
    intro a _ hfail
    obtain ⟨he, hr⟩ := hfail a (le_refl a) (by omega)
    cases Nat.eq_zero_or_pos m with
    | inl hm0 =>
      subst hm0
      rw [get_freq_go_last he hr]
      simp [count_writes_attempt, count_sleeps_attempt]
    | inr hmpos =>
      have hm : m ≠ 0 := by omega
      rw [get_freq_go_retry he hr hm]
      have ihh := ih (a + 1) (by omega) (fun k h1 h2 => hfail k (by omega) (by omega))
      refine ⟨?_, ?_, ?_⟩
      · have hidx : a + 1 + m - 1 = a + (m + 1) - 1 := by omega
        rw [← hidx]
        exact ihh.1
      · rw [count_writes_append, count_writes_sleep_cons, count_writes_attempt, ihh.2.1]
        omega
      · rw [count_sleeps_append, count_sleeps_sleep_cons, count_sleeps_attempt, ihh.2.2]
        omega

/-- With at least one attempt allowed, the loop never reaches its trailing
`return 1.0`: the result is an error, or the parsed value of one of the
attempts actually made. -/
lemma get_freq_go_no_fallthrough (chan : ℕ → AttemptIO) (d : ℚ) :
    ∀ (n a : ℕ), 1 ≤ n →
    (∃ e, (get_freq_go chan d a n).1 = Except.error e) ∨
    (∃ k, a ≤ k ∧ k < a + n ∧ attempt_outcome (chan k) = (get_freq_go chan d a n).1 ∧
      ∃ v, (get_freq_go chan d a n).1 = Except.ok v) := by
  intro n
  induction n with
  | zero => intro a h; omega
  | succ m ih =>
    intro a _
    cases ho : attempt_outcome (chan a) with
    | ok v =>
      right
      rw [get_freq_go_ok ho]
      exact ⟨a, le_refl a, by omega, by simpa using ho, v, rfl⟩
    | error e =>
      by_cases hr : retryable e = true
      · cases Nat.eq_zero_or_pos m with
        | inl hm0 =>
          subst hm0
          left
          rw [get_freq_go_last ho hr]
          exact ⟨PyErr.runtimeError e, rfl⟩
        | inr hmpos =>
          have hm : m ≠ 0 := by omega
          rw [get_freq_go_retry ho hr hm]
          rcases ih (a + 1) (by omega) with ⟨e2, he2⟩ | ⟨k, hk1, hk2, hk3, v, hv⟩
          · left
            exact ⟨e2, by simpa using he2⟩
          · right
            exact ⟨k, by omega, by omega, by simpa using hk3, v, by simpa using hv⟩
      · have hrf : retryable e = false := by simpa using hr
        left
        rw [get_freq_go_fatal ho hrf]
        exact ⟨e, rfl⟩

lemma subst_cmd_readLine (o n x : List Char) :
    subst_cmd o n (Event.readLine x) = Event.readLine x := rfl

lemma subst_cmd_sleep (o n : List Char) (q : ℚ) :
    subst_cmd o n (Event.sleep q) = Event.sleep q := rfl

/-- The events of one `get_freq` attempt, renamed to the `ampl` command,
are exactly the events of one `get_ampl` attempt. -/
lemma map_subst_attempt (a : AttemptIO) :
    (attempt_events freq_cmd a).map (subst_cmd freq_cmd ampl_cmd) = attempt_events ampl_cmd a := by
  by_cases h : a.echo = [] <;> simp [attempt_events, subst_cmd, h]

/-- The `get_ampl` loop is the `get_freq` loop with the written command
renamed: same result, same trace up to `subst_cmd`. -/
lemma get_ampl_go_eq (chan : ℕ → AttemptIO) (d : ℚ) :
    ∀ (n a : ℕ),
    get_ampl_go chan d a n =
      ((get_freq_go chan d a n).1,
        (get_freq_go chan d a n).2.map (subst_cmd freq_cmd ampl_cmd)) := by
  intro n
  induction n with
  | zero => intro a; simp [get_ampl_go, get_freq_go]
  | succ m ih =>
    intro a
    cases ho : attempt_outcome (chan a) with
    | ok v =>
      rw [get_freq_go_ok ho]
      simp [get_ampl_go, ho, map_subst_attempt]
    | error e =>
      by_cases hr : retryable e = true
      · cases Nat.eq_zero_or_pos m with
        | inl hm0 =>
          subst hm0
          rw [get_freq_go_last ho hr]
          simp [get_ampl_go, ho, hr, map_subst_attempt]
        | inr hmpos =>
          have hm : m ≠ 0 := by omega
          rw [get_freq_go_retry ho hr hm]
          simp [get_ampl_go, ho, hr, hm, ih (a + 1), map_subst_attempt, List.map_append,
            subst_cmd_sleep]
      · have hrf : retryable e = false := by simpa using hr
        rw [get_freq_go_fatal ho hrf]
        simp [get_ampl_go, ho, hrf, map_subst_attempt]

lemma count_writes_map_subst (o n : List Char) (l : List Event) :
    count_writes (l.map (subst_cmd o n)) = count_writes l := by
  induction l with
  | nil => rfl
  | cons e t ih => cases e <;> simp [count_writes, subst_cmd] at ih ⊢ <;> omega

lemma count_sleeps_map_subst (o n : List Char) (l : List Event) :
    count_sleeps (l.map (subst_cmd o n)) = count_sleeps l := by
  induction l with
  | nil => rfl
  | cons e t ih => cases e <;> simp [count_sleeps, subst_cmd] at ih ⊢ <;> omega

/-- One sweep iteration appends exactly one entry to each of the
measurement lists and records exactly the commanded frequency, whatever the
drift decision. -/
lemma sweep_step_fields (mf ma : ℤ → ℚ) (st : SweepState) (i : ℤ) :
    (sweep_step mf ma st i).freqs = st.freqs ++ [mf i] ∧
    (sweep_step mf ma st i).ampls = st.ampls ++ [ma i] ∧
    (sweep_step mf ma st i).commanded = st.commanded ++ [i] := by
  simp only [sweep_step]
  split <;> exact ⟨rfl, rfl, rfl⟩

/-- Folding the sweep loop over any list of step frequencies appends, in
order, one measured frequency, one measured amplitude and one commanded
frequency per step. -/
lemma sweep_foldl_fields (mf ma : ℤ → ℚ) :
    ∀ (l : List ℤ) (st : SweepState),
    (l.foldl (sweep_step mf ma) st).freqs = st.freqs ++ l.map mf ∧
    (l.foldl (sweep_step mf ma) st).ampls = st.ampls ++ l.map ma ∧
    (l.foldl (sweep_step mf ma) st).commanded = st.commanded ++ l := by
  intro l
  induction l with
  | nil => intro st; simp
  | cons i t ih =>
    intro st
    simp only [List.foldl_cons, List.map_cons]
    obtain ⟨h1, h2, h3⟩ := ih (sweep_step mf ma st i)
    obtain ⟨g1, g2, g3⟩ := sweep_step_fields mf ma st i
    rw [h1, h2, h3, g1, g2, g3]
    simp

/-- When both reads are nonempty, the attempt outcome is the parse of the
stripped response line. -/
lemma attempt_outcome_parse {a : AttemptIO} (h1 : a.echo ≠ []) (h2 : a.response ≠ []) :
    attempt_outcome a = parse_frequency (pyStrip a.response) := by
  unfold attempt_outcome
  rw [if_neg h1, if_neg h2]

/-- Whatever happens later, a `get_freq` loop run with at least one attempt
allowed starts its trace with the events of its first attempt. -/
lemma get_freq_go_events_head (chan : ℕ → AttemptIO) (d : ℚ) (a m : ℕ) :
    ∃ rest, (get_freq_go chan d a (m + 1)).2 = attempt_events freq_cmd (chan a) ++ rest := by
  cases ho : attempt_outcome (chan a) with
  | ok v => exact ⟨[], by rw [get_freq_go_ok ho]; simp⟩
  | error e =>
    by_cases hr : retryable e = true
    · cases Nat.eq_zero_or_pos m with
      | inl hm0 => exact ⟨[], by rw [hm0, get_freq_go_last ho hr]; simp⟩
      | inr hmpos =>
        have hm : m ≠ 0 := by omega
        exact ⟨Event.sleep d :: (get_freq_go chan d (a + 1) m).2,
          by rw [get_freq_go_retry ho hr hm]⟩
    · have hrf : retryable e = false := by simpa using hr
      exact ⟨[], by rw [get_freq_go_fatal ho hrf]; simp⟩

/-- C4: `parse_measurement` applied to "C1:PAVA FREQ,10.00175E+3 HZ,AV"
returns 10001.75; in general it splits the input on commas, takes the first
whitespace-delimited word of the second comma-field, and parses that token
as a floating-point number in exponent form (yielding that value when
the token parses, and the format error when it does not). -/
theorem parse_measurement_example :
    parse_frequency "C1:PAVA FREQ,10.00175E+3 HZ,AV".toList = Except.ok (10001.75 : ℚ) ∧
    ∀ (s p1 : List Char) (p0 : List Char) (rest : List (List Char))
      (t : List Char) (ts : List (List Char)),
      splitOnChar ',' s = p0 :: p1 :: rest →
      pyWords p1 = t :: ts →
      parse_frequency s =
        (match pyFloat t with
          | some q => Except.ok q
          | none => Except.error PyErr.valueError) := by
  refine ⟨parse_pava_ok, ?_⟩
  intro s p1 p0 rest t ts h1 h2
  simp [parse_frequency, h1, h2]

/-- C4 witness: instantiating the general clause on the concrete input
"A,B C,D", whose second comma-field's first word "B" does not parse. -/
theorem parse_measurement_example_w :
    parse_frequency "A,B C,D".toList = Except.error PyErr.valueError := by
  have h := parse_measurement_example.2 "A,B C,D".toList "B C".toList "A".toList ["D".toList]
    "B".toList ["C".toList] (by decide) (by decide)
  rw [h]
  decide

/-- C5 counterexample: "C1:PAVA , ,AV" has three comma-fields and its
numeric token would have to come from the blank second field, so the claimed
dichotomy (format error exactly on fewer-than-2 fields or unparseable token,
a float otherwise) fails: the parser yields the index error, which is
neither a format error nor a value. -/
theorem parse_error_classes_cex :
    (splitOnChar ',' "C1:PAVA , ,AV".toList).length = 3 ∧
    parse_frequency "C1:PAVA , ,AV".toList = Except.error PyErr.indexError ∧
    PyErr.indexError ≠ PyErr.valueError := by
  exact ⟨by decide, by decide, by decide⟩

/-- C5 (amended): `parse_measurement` fails with the format error exactly
when the input has fewer than 2 comma-fields or the first word of the second
comma-field fails to parse as a float; when the second comma-field contains
no whitespace-delimited word at all it instead fails with an index error;
on every other input it returns the parsed float. -/
theorem parse_error_classes (s : List Char) :
    ((splitOnChar ',' s).length < 2 → parse_frequency s = Except.error PyErr.valueError) ∧
    (∀ p0 p1 rest, splitOnChar ',' s = p0 :: p1 :: rest →
      (pyWords p1 = [] → parse_frequency s = Except.error PyErr.indexError) ∧
      (∀ t ts, pyWords p1 = t :: ts →
        (pyFloat t = none → parse_frequency s = Except.error PyErr.valueError) ∧
        (∀ q, pyFloat t = some q → parse_frequency s = Except.ok q))) := by
  constructor
  · intro hlen
    cases h1 : splitOnChar ',' s with
    | nil => simp [parse_frequency, h1]
    | cons p0 rest =>
      cases rest with
      | nil => simp [parse_frequency, h1]
      | cons p1 r2 =>
        rw [h1] at hlen
        simp at hlen
        omega
  · intro p0 p1 rest h1
    refine ⟨?_, ?_⟩
    · intro h2
      simp [parse_frequency, h1, h2]
    · intro t ts h2
      refine ⟨?_, ?_⟩
      · intro h3
        simp [parse_frequency, h1, h2, h3]
      · intro q h3
        simp [parse_frequency, h1, h2, h3]

/-- C5 witness: the spec's own example "garbage" (one comma-field) hits the
format error through the amended classification. -/
theorem parse_error_classes_w :
    parse_frequency "garbage".toList = Except.error PyErr.valueError :=
  (parse_error_classes "garbage".toList).1 (by decide)

/-- C10: on "C1:PAVA , ,AV" (at least 2 comma-fields, blank second field)
the parser raises the index error, which the retry loop does not catch
(`retryable` is false for it), so a query whose first attempt parses such a
response terminates immediately with that error: one attempt, no retry
pause, and no exhausted-retries wrapping. -/
theorem index_error_escapes :
    parse_frequency "C1:PAVA , ,AV".toList = Except.error PyErr.indexError ∧
    retryable PyErr.indexError = false ∧
    ∀ (chan : ℕ → AttemptIO) (R : ℤ) (d : ℚ), 1 ≤ R →
      attempt_outcome (chan 1) = Except.error PyErr.indexError →
      (get_freq chan R d).1 = Except.error PyErr.indexError ∧
      count_writes (get_freq chan R d).2 = 1 ∧
      count_sleeps (get_freq chan R d).2 = 0 := by
  refine ⟨by decide, rfl, ?_⟩
  intro chan R d hR h1
  obtain ⟨m, hm⟩ : ∃ m, R.toNat = m + 1 := ⟨R.toNat - 1, by omega⟩
  unfold get_freq
  rw [hm, get_freq_go_fatal h1 rfl]
  exact ⟨rfl, count_writes_attempt _ _, count_sleeps_attempt _ _⟩

/-- C10 witness: a channel that echoes and then answers "C1:PAVA , ,AV"
kills a 3-retry query on its first attempt with the index error. -/
theorem index_error_escapes_w :
    (get_freq (fun _ => ⟨"X".toList, "C1:PAVA , ,AV".toList⟩) 3 (1/2)).1
      = Except.error PyErr.indexError :=
  (index_error_escapes.2.2 (fun _ => ⟨"X".toList, "C1:PAVA , ,AV".toList⟩) 3 (1/2)
    (by norm_num) (by decide)).1

/-- C1 counterexample: in a concrete sweep run the frequencies commanded to
the generator are not the claimed sequence 9900, 9800, ..., 1000 — the loop
`range(max_freq, min_freq, -step)` starts at 10000 and stops at 1100. -/
theorem sweep_schedule_cex :
    (sweep_run (fun _ => 1) (fun _ => 1) 1000 10000 100).commanded ≠
      (List.range 90).map (fun k => (9900 : ℤ) - 100 * (k : ℤ)) := by
  unfold sweep_run
  rw [(sweep_foldl_fields (fun _ => 1) (fun _ => 1) (sweep_points 1000 10000 100)
    (sweep_init 10000)).2.2]
  show (sweep_init 10000).commanded ++ sweep_points 1000 10000 100 ≠ _
  decide

/-- C1 (amended): with `min_freq=1000, max_freq=10000, step=100` the sweep
loop produces exactly 90 measurements, and the step frequencies commanded to
the generator are, in order, the strictly decreasing sequence
10000, 9900, ..., 1100 (iterating from max inclusive down to min exclusive
in fixed decrements). -/
theorem sweep_schedule (mf ma : ℤ → ℚ) :
    (sweep_run mf ma 1000 10000 100).freqs.length = 90 ∧
    (sweep_run mf ma 1000 10000 100).ampls.length = 90 ∧
    (sweep_run mf ma 1000 10000 100).commanded =
      (List.range 90).map (fun k => (10000 : ℤ) - 100 * (k : ℤ)) ∧
    strictlyDecreasing (sweep_run mf ma 1000 10000 100).commanded = true := by
  obtain ⟨h1, h2, h3⟩ := sweep_foldl_fields mf ma (sweep_points 1000 10000 100) (sweep_init 10000)
  unfold sweep_run
  refine ⟨?_, ?_, ?_, ?_⟩
  · rw [h1]
    simp only [sweep_init, List.nil_append, List.length_map]
    decide
  · rw [h2]
    simp only [sweep_init, List.nil_append, List.length_map]
    decide
  · rw [h3]
    show (sweep_init 10000).commanded ++ sweep_points 1000 10000 100 = _
    decide
  · rw [h3]
    show strictlyDecreasing ((sweep_init 10000).commanded ++ sweep_points 1000 10000 100) = true
    decide

/-- C3: in a sweep step with measured frequency `f = mf i > 0` and positive
reference period `P`, autoset is re-triggered and the reference period
updated to `1/f` exactly when the relative period change
`|1/f - P| / P` meets the threshold 0.4; below the threshold neither the
autoset count nor the reference period changes. -/
theorem drift_rule (mf ma : ℤ → ℚ) (st : SweepState) (i : ℤ)
    (_hf : 0 < mf i) (_hP : 0 < st.last_period) :
    ((0.4 : ℚ) ≤ |1 / mf i - st.last_period| / st.last_period →
      (sweep_step mf ma st i).aset_count = st.aset_count + 1 ∧
      (sweep_step mf ma st i).last_period = 1 / mf i) ∧
    (|1 / mf i - st.last_period| / st.last_period < 0.4 →
      (sweep_step mf ma st i).aset_count = st.aset_count ∧
      (sweep_step mf ma st i).last_period = st.last_period) := by
  constructor
  · intro h
    simp only [sweep_step]
    split
    · exact ⟨rfl, rfl⟩
    · next hcond => exact absurd h hcond
  · intro h
    simp only [sweep_step]
    split
    · next hcond => exact absurd hcond (not_le.mpr h)
    · exact ⟨rfl, rfl⟩

/-- C3 witness: from reference period 1/10000, measuring 1000 Hz gives a
relative period change of 9, which triggers autoset and adopts 1/1000. -/
theorem drift_rule_w :
    (sweep_step (fun _ => (1000 : ℚ)) (fun _ => 1)
      { last_period := 1 / 10000, freqs := [], ampls := [], commanded := [], aset_count := 0 }
      1000).aset_count = 0 + 1 ∧
    (sweep_step (fun _ => (1000 : ℚ)) (fun _ => 1)
      { last_period := 1 / 10000, freqs := [], ampls := [], commanded := [], aset_count := 0 }
      1000).last_period = 1 / 1000 := by
  have h := drift_rule (fun _ => (1000 : ℚ)) (fun _ => 1)
    { last_period := 1 / 10000, freqs := [], ampls := [], commanded := [], aset_count := 0 }
    1000 (by norm_num) (by norm_num)
  refine h.1 ?_
  have habs : |1 / (1000 : ℚ) - 1 / 10000| = 9 / 10000 := by
    rw [show (1 : ℚ) / 1000 - 1 / 10000 = 9 / 10000 from by norm_num]
    rw [abs_of_pos]
    norm_num
  show (0.4 : ℚ) ≤ |1 / (1000 : ℚ) - 1 / 10000| / (1 / 10000)
  rw [habs]
  norm_num

/-- C7: throughout a sweep run — after any prefix of the step list — the
frequency and amplitude sequences have equal length, with exactly one entry
per completed step, and the final lists extend the intermediate ones (no
entry is ever mutated or removed, only appended). -/
theorem sweep_parallel_lists (mf ma : ℤ → ℚ) (min_freq max_freq step : ℤ)
    (l1 l2 : List ℤ) (hsplit : sweep_points min_freq max_freq step = l1 ++ l2) :
    (l1.foldl (sweep_step mf ma) (sweep_init max_freq)).freqs.length =
      (l1.foldl (sweep_step mf ma) (sweep_init max_freq)).ampls.length ∧
    (l1.foldl (sweep_step mf ma) (sweep_init max_freq)).freqs.length = l1.length ∧
    (∃ t, (sweep_run mf ma min_freq max_freq step).freqs =
      (l1.foldl (sweep_step mf ma) (sweep_init max_freq)).freqs ++ t) ∧
    (∃ t, (sweep_run mf ma min_freq max_freq step).ampls =
      (l1.foldl (sweep_step mf ma) (sweep_init max_freq)).ampls ++ t) := by
  obtain ⟨h1, h2, _⟩ := sweep_foldl_fields mf ma l1 (sweep_init max_freq)
  have hrun : sweep_run mf ma min_freq max_freq step =
      l2.foldl (sweep_step mf ma) (l1.foldl (sweep_step mf ma) (sweep_init max_freq)) := by
    unfold sweep_run
    rw [hsplit, List.foldl_append]
  obtain ⟨g1, g2, _⟩ :=
    sweep_foldl_fields mf ma l2 (l1.foldl (sweep_step mf ma) (sweep_init max_freq))
  refine ⟨?_, ?_, ⟨l2.map mf, ?_⟩, ⟨l2.map ma, ?_⟩⟩
  · rw [h1, h2]
    simp [sweep_init]
  · rw [h1]
    simp [sweep_init]
  · rw [hrun, g1]
  · rw [hrun, g2]

/-- C7 witness: splitting the concrete sweep schedule after its first two
steps, the intermediate state holds exactly two entries in each list. -/
theorem sweep_parallel_lists_w :
    ([10000, 9900].foldl (sweep_step (fun _ => 1) (fun _ => 1)) (sweep_init 10000)).freqs.length
      = 2 := by
  have h := sweep_parallel_lists (fun _ => 1) (fun _ => 1) 1000 10000 100 [10000, 9900]
    ((List.range 88).map (fun k => (9800 : ℤ) - 100 * (k : ℤ))) (by decide)
  simpa using h.2.1

/-- C2: for retry count R ≥ 1, when the first F attempts fail with
retryable errors (timeout or parse failure) and attempt F + 1 would
succeed, both numeric queries return the value parsed on that first
succeeding attempt after F + 1 attempts with a retry pause after each
failure (F < R), and when F ≥ R they raise the exhausted-retries
`RuntimeError` wrapping the last attempt's error after exactly R attempts
(F ≥ R). -/
theorem freq_retry_policy (chan : ℕ → AttemptIO) (R : ℤ) (d : ℚ) (F : ℕ)
    (e : ℕ → PyErr) (v : ℚ)
    (hR : 1 ≤ R)
    (hfail : ∀ k, 1 ≤ k → k ≤ F →
      attempt_outcome (chan k) = Except.error (e k) ∧ retryable (e k) = true)
    (hsucc : attempt_outcome (chan (F + 1)) = Except.ok v) :
    ((F : ℤ) < R →
      (get_freq chan R d).1 = Except.ok v ∧
      count_writes (get_freq chan R d).2 = F + 1 ∧
      count_sleeps (get_freq chan R d).2 = F ∧
      (get_ampl chan R d).1 = Except.ok v ∧
      count_writes (get_ampl chan R d).2 = F + 1 ∧
      count_sleeps (get_ampl chan R d).2 = F) ∧
    (R ≤ (F : ℤ) →
      (get_freq chan R d).1 = Except.error (PyErr.runtimeError (e R.toNat)) ∧
      count_writes (get_freq chan R d).2 = R.toNat ∧
      count_sleeps (get_freq chan R d).2 = R.toNat - 1 ∧
      (get_ampl chan R d).1 = Except.error (PyErr.runtimeError (e R.toNat)) ∧
      count_writes (get_ampl chan R d).2 = R.toNat ∧
      count_sleeps (get_ampl chan R d).2 = R.toNat - 1) := by
  have hampl : get_ampl chan R d =
      ((get_freq chan R d).1, (get_freq chan R d).2.map (subst_cmd freq_cmd ampl_cmd)) :=
    get_ampl_go_eq chan d R.toNat 1
  constructor
  · intro hFR
    have hlt : F < R.toNat := by omega
    have h := get_freq_go_succeeds chan d v F 1 R.toNat hlt
      (fun k hk1 hk2 => ⟨e k, hfail k hk1 (by omega)⟩)
      (by rw [show 1 + F = F + 1 from by omega]; exact hsucc)
    refine ⟨h.1, h.2.1, h.2.2, ?_, ?_, ?_⟩
    · rw [hampl]
      exact h.1
    · rw [hampl]
      show count_writes ((get_freq chan R d).2.map (subst_cmd freq_cmd ampl_cmd)) = F + 1
      rw [count_writes_map_subst]
      exact h.2.1
    · rw [hampl]
      show count_sleeps ((get_freq chan R d).2.map (subst_cmd freq_cmd ampl_cmd)) = F
      rw [count_sleeps_map_subst]
      exact h.2.2
  · intro hRF
    have hge : 1 ≤ R.toNat := by omega
    have h := get_freq_go_exhausts chan d e R.toNat 1 hge
      (fun k hk1 hk2 => hfail k hk1 (by omega))
    rw [show 1 + R.toNat - 1 = R.toNat from by omega] at h
    refine ⟨h.1, h.2.1, h.2.2, ?_, ?_, ?_⟩
    · rw [hampl]
      exact h.1
    · rw [hampl]
      show count_writes ((get_freq chan R d).2.map (subst_cmd freq_cmd ampl_cmd)) = R.toNat
      rw [count_writes_map_subst]
      exact h.2.1
    · rw [hampl]
      show count_sleeps ((get_freq chan R d).2.map (subst_cmd freq_cmd ampl_cmd)) = R.toNat - 1
      rw [count_sleeps_map_subst]
      exact h.2.2

/-- C2 witness: with 3 retries, one timed-out attempt followed by a good
response returns the parsed value 10001.75. -/
theorem freq_retry_policy_w :
    (get_freq (fun k => if k = 1 then ⟨[], []⟩
      else ⟨"E".toList, "C1:PAVA FREQ,10.00175E+3 HZ,AV".toList⟩) 3 (1 / 2)).1
      = Except.ok (10001.75 : ℚ) := by
  have hsucc : attempt_outcome ((fun k => if k = 1 then (⟨[], []⟩ : AttemptIO)
      else ⟨"E".toList, "C1:PAVA FREQ,10.00175E+3 HZ,AV".toList⟩) (1 + 1))
      = Except.ok (10001.75 : ℚ) := by
    show attempt_outcome ⟨"E".toList, "C1:PAVA FREQ,10.00175E+3 HZ,AV".toList⟩
      = Except.ok (10001.75 : ℚ)
    rw [attempt_outcome_parse (by decide) (by decide)]
    rw [show pyStrip "C1:PAVA FREQ,10.00175E+3 HZ,AV".toList
      = "C1:PAVA FREQ,10.00175E+3 HZ,AV".toList from by decide]
    exact parse_pava_ok
  have h := freq_retry_policy (fun k => if k = 1 then ⟨[], []⟩
      else ⟨"E".toList, "C1:PAVA FREQ,10.00175E+3 HZ,AV".toList⟩) 3 (1 / 2) 1
    (fun _ => PyErr.timeoutError) (10001.75 : ℚ) (by norm_num)
    (fun k hk1 hk2 => by
      have hk : k = 1 := by omega
      subst hk
      exact ⟨by decide, rfl⟩)
    hsucc
  exact (h.1 (by norm_num)).1

/-- C6: within one attempt, the outcome is the timeout error exactly when
the echo read or the response read was empty; with both reads nonempty the
attempt proceeds to parsing the stripped response line; and a query's trace
starts with the command write, then the echo read, then (when the echo was
nonempty) the response read, in that order. -/
theorem query_attempt_reads (a : AttemptIO) :
    (attempt_outcome a = Except.error PyErr.timeoutError ↔ (a.echo = [] ∨ a.response = [])) ∧
    (a.echo ≠ [] → a.response ≠ [] → attempt_outcome a = parse_frequency (pyStrip a.response)) ∧
    (∀ (chan : ℕ → AttemptIO) (R : ℤ) (d : ℚ), 1 ≤ R → chan 1 = a →
      ∃ rest, (get_freq chan R d).2 =
        Event.write freq_cmd :: Event.readLine a.echo ::
          (if a.echo = [] then rest else Event.readLine a.response :: rest)) := by
  refine ⟨attempt_outcome_timeout_iff a, fun h1 h2 => attempt_outcome_parse h1 h2, ?_⟩
  intro chan R d hR hch
  obtain ⟨m, hm⟩ : ∃ m, R.toNat = m + 1 := ⟨R.toNat - 1, by omega⟩
  obtain ⟨rest, hrest⟩ := get_freq_go_events_head chan d 1 m
  refine ⟨rest, ?_⟩
  show (get_freq_go chan d 1 R.toNat).2 = _
  rw [hm, hrest, hch]
  by_cases hech : a.echo = []
  · simp [attempt_events, hech]
  · simp [attempt_events, hech]

/-- C6 witness: on a channel answering echo "E" and response "R" with one
retry, the attempt parses the response and the trace shows
write-read-read. -/
theorem query_attempt_reads_w :
    attempt_outcome ⟨"E".toList, "R".toList⟩ = parse_frequency (pyStrip "R".toList) ∧
    ∃ rest, (get_freq (fun _ => ⟨"E".toList, "R".toList⟩) 1 (1 / 2)).2 =
      Event.write freq_cmd :: Event.readLine "E".toList ::
        Event.readLine "R".toList :: rest := by
  have h := query_attempt_reads ⟨"E".toList, "R".toList⟩
  constructor
  · exact h.2.1 (by decide) (by decide)
  · obtain ⟨rest, hr⟩ := h.2.2 (fun _ => ⟨"E".toList, "R".toList⟩) 1 (1 / 2) (by norm_num) rfl
    exact ⟨rest, by simpa using hr⟩

/-- C8: the amplitude query is the frequency query with the written command
keyword renamed from `freq` to `ampl`: for every channel behaviour, retry
count and delay, its result is identical and its trace is the `get_freq`
trace with only that write renamed; the renaming leaves reads and sleeps
untouched and maps the `freq` command write to the `ampl` command write. -/
theorem ampl_freq_equiv (chan : ℕ → AttemptIO) (R : ℤ) (d : ℚ) :
    get_ampl chan R d =
      ((get_freq chan R d).1,
        (get_freq chan R d).2.map (subst_cmd freq_cmd ampl_cmd)) ∧
    (∀ x, subst_cmd freq_cmd ampl_cmd (Event.readLine x) = Event.readLine x) ∧
    (∀ q, subst_cmd freq_cmd ampl_cmd (Event.sleep q) = Event.sleep q) ∧
    subst_cmd freq_cmd ampl_cmd (Event.write freq_cmd) = Event.write ampl_cmd := by
  refine ⟨get_ampl_go_eq chan d R.toNat 1, fun x => rfl, fun q => rfl, by simp [subst_cmd]⟩

/-- C9: with retry count R ≤ 0 both numeric queries return the fallback 1.0
without touching the serial port (empty trace, no error); with R ≥ 1 the
fallback is unreachable: the result is an error or the value parsed by one
of the at most R attempts actually made. -/
theorem query_retry_bounds (chan : ℕ → AttemptIO) (d : ℚ) :
    (∀ R : ℤ, R ≤ 0 →
      get_freq chan R d = (Except.ok 1, []) ∧ get_ampl chan R d = (Except.ok 1, [])) ∧
    (∀ R : ℤ, 1 ≤ R →
      ((∃ e, (get_freq chan R d).1 = Except.error e) ∨
        (∃ k, 1 ≤ k ∧ k ≤ R.toNat ∧ attempt_outcome (chan k) = (get_freq chan R d).1 ∧
          ∃ v, (get_freq chan R d).1 = Except.ok v)) ∧
      ((∃ e, (get_ampl chan R d).1 = Except.error e) ∨
        (∃ k, 1 ≤ k ∧ k ≤ R.toNat ∧ attempt_outcome (chan k) = (get_ampl chan R d).1 ∧
          ∃ v, (get_ampl chan R d).1 = Except.ok v))) := by
  constructor
  · intro R hR
    have h0 : R.toNat = 0 := by omega
    constructor
    · show get_freq_go chan d 1 R.toNat = _
      rw [h0]
      rfl
    · show get_ampl_go chan d 1 R.toNat = _
      rw [h0]
      rfl
  · intro R hR
    have h1 : 1 ≤ R.toNat := by omega
    have hampl : get_ampl chan R d =
        ((get_freq chan R d).1, (get_freq chan R d).2.map (subst_cmd freq_cmd ampl_cmd)) :=
      get_ampl_go_eq chan d R.toNat 1
    have h := get_freq_go_no_fallthrough chan d R.toNat 1 h1
    constructor
    · rcases h with ⟨e, he⟩ | ⟨k, hk1, hk2, hk3, v, hv⟩
      · exact Or.inl ⟨e, he⟩
      · exact Or.inr ⟨k, hk1, by omega, hk3, v, hv⟩
    · rw [hampl]
      rcases h with ⟨e, he⟩ | ⟨k, hk1, hk2, hk3, v, hv⟩
      · exact Or.inl ⟨e, by simpa using he⟩
      · exact Or.inr ⟨k, hk1, by omega, by simpa using hk3, v, by simpa using hv⟩

/-- C9 witness: with retry count -1 the query performs no serial traffic at
all and returns 1.0. -/
theorem query_retry_bounds_w :
    get_freq (fun _ => ⟨[], []⟩) (-1) (1 / 2) = (Except.ok 1, []) :=
  ((query_retry_bounds (fun _ => ⟨[], []⟩) (1 / 2)).1 (-1) (by norm_num)).1
